import Mathlib

/-!
Verification of the shadows_of_the_knight_ep_2 program.

Part 1 embeds the C++ source shallowly: machine ints become Int, the
input stream becomes explicit arguments (the bootstrap integers and the
per-turn feedback tokens), exceptions become Except, and output becomes
the list of emitted lines.

Part 2 models, from the specification, the binary-search strategy the
program is meant to host (the source only contains the IStrategy
interface and a stub returning the origin); those definitions carry a
doc comment starting with the words Modelled from the spec.
-/

/-! ## Part 1: shallow embedding of the source -/

/-- Point from the MATH UTILS region: a pair of ints. -/
structure Point where
  X : Int
  Y : Int
  deriving DecidableEq

/-- Message text used by CheckArgument; the source writes
argument, then the value between apostrophes, then is incorrect. -/
def argPrefixText : String := "argument \x27"

/-- Tail of the CheckArgument message. -/
def argSuffixText : String := "\x27 is incorrect"

/-- Separator the source appends after a non-empty message. -/
def msgSepText : String := ": "

/-- Empty string, used where the C++ stream extraction of a token at
end of input leaves the string empty. -/
def emptyToken : String := ""

/-- CheckArgument from the source: returns the argument if the
predicate accepts it, otherwise throws a runtime error whose message
is the optional prefix followed by the formatted argument. -/
def CheckArgument (argument : Int) (pred : Int → Bool) (message : String) : Except String Int :=
  if pred argument then Except.ok argument
  else Except.error ((if message = emptyToken then emptyToken else message ++ msgSepText)
    ++ argPrefixText ++ toString argument ++ argSuffixText)

/-- Building from the source: immutable width and height. -/
structure Building where
  Width : Int
  Height : Int
  deriving DecidableEq

def Building.MIN_WIDTH : Int := 1
def Building.MAX_WIDTH : Int := 10000
def Building.MIN_HEIGHT : Int := 5
def Building.MAX_HEIGHT : Int := 10000

/-- Message prefix for the width check. -/
def buildingWidthMsg : String := "Building width"

/-- Message prefix for the height check. -/
def buildingHeightMsg : String := "Building height"

/-- Building constructor: validates width first, then height, exactly
as the member initializer list does. -/
def Building.construct (width height : Int) : Except String Building := do
  let w ← CheckArgument width (fun w => Building.MIN_WIDTH ≤ w && w ≤ Building.MAX_WIDTH)
    buildingWidthMsg
  let h ← CheckArgument height (fun h => Building.MIN_HEIGHT ≤ h && h ≤ Building.MAX_HEIGHT)
    buildingHeightMsg
  Except.ok ⟨w, h⟩

def Building.GetWidth (b : Building) : Int := b.Width

def Building.GetHeight (b : Building) : Int := b.Height

/-- Batman from the source: a validated starting position. -/
structure Batman where
  Position : Point
  deriving DecidableEq

/-- Message prefix for the x0 check. -/
def batmanXMsg : String := "Batman x0"

/-- Message prefix for the y0 check. -/
def batmanYMsg : String := "Batman y0"

/-- Batman constructor: x is checked against [0, MAX_WIDTH), y against
[0, MAX_HEIGHT); the building actually in play is not consulted. -/
def Batman.construct (x y : Int) : Except String Batman := do
  let px ← CheckArgument x (fun x0 => 0 ≤ x0 && x0 < Building.MAX_WIDTH) batmanXMsg
  let py ← CheckArgument y (fun y0 => 0 ≤ y0 && y0 < Building.MAX_HEIGHT) batmanYMsg
  Except.ok ⟨⟨px, py⟩⟩

def Batman.GetPosition (b : Batman) : Point := b.Position

/-- SimpleStrategy::MakeDecision from the source: the parameter is
ignored (commented out in the C++) and the origin is returned. -/
def SimpleStrategy.MakeDecision (bombDirection : String) : Point := ⟨0, 0⟩

/-- Game state from the source: the building, the remaining turn
count, and the player; the strategy object has no fields so it does
not contribute state. -/
structure Game where
  House : Building
  TurnsLeft : Int
  Player : Batman
  deriving DecidableEq

def Game.STOP_BELOW_TURNS : Int := 1
def Game.MIN_INPUT_TURNS : Int := 2
def Game.MAX_INPUT_TURNS : Int := 100

/-- Message prefix for the turns check. -/
def turnsMsg : String := "Turns left"

/-- Game::ReadTurns with the stream read made explicit: the integer
read is validated to lie in [MIN_INPUT_TURNS, MAX_INPUT_TURNS]. -/
def Game.ReadTurns (turnsLeft : Int) : Except String Int :=
  CheckArgument turnsLeft
    (fun turns => Game.MIN_INPUT_TURNS ≤ turns && turns ≤ Game.MAX_INPUT_TURNS) turnsMsg

/-- Game constructor with the five bootstrap integers made explicit,
in the order the member initializer list reads them: building width
and height, the turn budget, then the start coordinates. -/
def Game.construct (w h turns x y : Int) : Except String Game := do
  let house ← Building.construct w h
  let turnsLeft ← Game.ReadTurns turns
  let player ← Batman.construct x y
  Except.ok ⟨house, turnsLeft, player⟩

/-- Game::IsRunning from the source: TurnsLeft is at least
STOP_BELOW_TURNS. -/
def Game.IsRunning (g : Game) : Bool := decide (Game.STOP_BELOW_TURNS ≤ g.TurnsLeft)

/-- Message thrown by Game::BeforeTurn on a stopped game. -/
def notRunningMsg : String := "The game is not running: no turns left"

/-- Game::BeforeTurn from the source: throws when the game is not
running. -/
def Game.BeforeTurn (g : Game) : Except String Unit :=
  if g.IsRunning then Except.ok () else Except.error notRunningMsg

/-- Newline emitted by std::endl. -/
def endlText : String := "\n"

/-- Single space separating the two coordinates on an output line. -/
def spaceText : String := " "

/-- Game::OnTurn from the source, with the stream read and write made
explicit: it consumes one feedback token, asks the strategy for a
decision, and the returned value is the emitted line, X then a space
then Y then a newline. -/
def Game.OnTurn (bombDir : String) : String :=
  let jumpTo := SimpleStrategy.MakeDecision bombDir
  toString jumpTo.X ++ spaceText ++ toString jumpTo.Y ++ endlText

/-- Game::AfterTurn from the source: decrements TurnsLeft. -/
def Game.AfterTurn (g : Game) : Game := { g with TurnsLeft := g.TurnsLeft - 1 }

/-- Game::NextTurn from the source: BeforeTurn, then OnTurn, then
AfterTurn; the result is the advanced game together with the line the
turn printed. -/
def Game.NextTurn (g : Game) (bombDir : String) : Except String (Game × String) := do
  let _ ← g.BeforeTurn
  Except.ok (g.AfterTurn, Game.OnTurn bombDir)

/-- The while loop of main, fuel-indexed so it is structurally
recursive; a token read past the end of the feedback list yields the
empty string, as stream extraction at end of input does. -/
def Game.loopFrom : Nat → Game → List String → List String
  | 0, _, _ => []
  | Nat.succ fuel, g, feedback =>
    if g.IsRunning then
      Game.OnTurn (feedback.headD emptyToken) :: Game.loopFrom fuel g.AfterTurn feedback.tail
    else []

/-- The while loop of main: each iteration runs exactly one turn and
decrements TurnsLeft by one, so TurnsLeft.toNat iterations of fuel are
exactly enough; loopFrom_fuel below proves any larger fuel gives the
same trace, so this is the loop's semantics. -/
def Game.mainLoop (g : Game) (feedback : List String) : List String :=
  Game.loopFrom g.TurnsLeft.toNat g feedback

/-- The whole program: construct the Game from the five bootstrap
integers (any validation failure escapes as the error, producing no
output), then run the loop over the feedback tokens; the result is
the list of emitted lines. -/
def mainProgram (w h turns x y : Int) (feedback : List String) : Except String (List String) := do
  let g ← Game.construct w h turns x y
  Except.ok (g.mainLoop feedback)

/-! ## Part 2: the search strategy modelled from the specification -/

/-- Modelled from the spec: the error taxonomy of section 7
(InvalidArgument, InvalidState, DataIntegrityError, SessionNotRunning);
the source's binary-search strategy is missing, so its failure
conditions are represented by this enumeration. -/
inductive ErrorKind where
  | invalidArgument
  | invalidState
  | dataIntegrityError
  | sessionNotRunning
  deriving DecidableEq

/-- Modelled from the spec: a coordinate inside the building,
x in [0, width), y in [0, height); coordinates are non-negative so
they are carried as Nat. -/
structure Coord where
  x : Nat
  y : Nat
  deriving DecidableEq

/-- Modelled from the spec: the SearchState rectangle, the axis-aligned
window (inclusive bounds) still known to contain the target. -/
structure SearchState where
  xMin : Nat
  xMax : Nat
  yMin : Nat
  yMax : Nat
  deriving DecidableEq

/-- Modelled from the spec: the categorical feedback token; left and
right are the horizontal directions, above and below the vertical ones
(above means a strictly smaller y, per the update rule that sets
yMax to the previous y minus one), and found means both coordinates
of the previous probe matched the target. -/
inductive Feedback where
  | left
  | right
  | above
  | below
  | found
  deriving DecidableEq

/-- Modelled from the spec: number of columns of the window. -/
def SearchState.sizeX (s : SearchState) : Nat := s.xMax - s.xMin + 1

/-- Modelled from the spec: number of rows of the window. -/
def SearchState.sizeY (s : SearchState) : Nat := s.yMax - s.yMin + 1

/-- Modelled from the spec: area of the search window. -/
def SearchState.area (s : SearchState) : Nat := s.sizeX * s.sizeY

/-- Modelled from the spec: convergence means the window is reduced to
a single point on all axes. -/
def SearchState.converged (s : SearchState) : Bool :=
  s.xMin == s.xMax && s.yMin == s.yMax

/-- Modelled from the spec: the probe is the floor-division midpoint of
each axis interval; when an interval has exactly one remaining value
the midpoint is that value. -/
def SearchState.probe (s : SearchState) : Coord :=
  ⟨(s.xMin + s.xMax) / 2, (s.yMin + s.yMax) / 2⟩

/-- Modelled from the spec: the initial window of a session is the
full rectangle from the origin to (width - 1, height - 1). -/
def initState (w h : Nat) : SearchState := ⟨0, w - 1, 0, h - 1⟩

/-- Modelled from the spec: a decision is the next probe coordinate,
the narrowed state, and whether the strategy signals completion. -/
structure DecideResult where
  coord : Coord
  nextState : SearchState
  isFound : Bool
  deriving DecidableEq

/-- Modelled from the spec: the pure decision function of section 4.3.
It fails with InvalidState when invoked after convergence; a
directional feedback that contradicts the window (no cell of the
window lies in the claimed direction of the previous probe) fails with
DataIntegrityError; otherwise the window is halved on the feedback's
axis relative to the previous probe (the midpoint), and the new probe
is the midpoint of the narrowed window; found returns the previous
probe unchanged and signals completion. -/
def SearchState.decide (s : SearchState) (f : Feedback) : Except ErrorKind DecideResult :=
  if s.converged then Except.error ErrorKind.invalidState
  else
    match f with
    | Feedback.found => Except.ok ⟨s.probe, s, true⟩
    | Feedback.left =>
      if s.probe.x ≤ s.xMin then Except.error ErrorKind.dataIntegrityError
      else
        let s2 : SearchState := { s with xMax := s.probe.x - 1 }
        Except.ok ⟨s2.probe, s2, false⟩
    | Feedback.right =>
      if s.xMax ≤ s.probe.x then Except.error ErrorKind.dataIntegrityError
      else
        let s2 : SearchState := { s with xMin := s.probe.x + 1 }
        Except.ok ⟨s2.probe, s2, false⟩
    | Feedback.above =>
      if s.probe.y ≤ s.yMin then Except.error ErrorKind.dataIntegrityError
      else
        let s2 : SearchState := { s with yMax := s.probe.y - 1 }
        Except.ok ⟨s2.probe, s2, false⟩
    | Feedback.below =>
      if s.yMax ≤ s.probe.y then Except.error ErrorKind.dataIntegrityError
      else
        let s2 : SearchState := { s with yMin := s.probe.y + 1 }
        Except.ok ⟨s2.probe, s2, false⟩

/-- Modelled from the spec: the turn loop of section 4.4 restricted to
the strategy calls; it consumes feedback tokens one by one, stops the
instant the strategy signals found, and when the tokens are exhausted
reports the current probe together with a false found flag (the
reportable-failure outcome); strategy failures propagate. -/
def runSearch : SearchState → List Feedback → Except ErrorKind (Coord × SearchState × Bool)
  | s, [] => Except.ok (s.probe, s, false)
  | s, f :: fs =>
    match s.decide f with
    | Except.error e => Except.error e
    | Except.ok r =>
      if r.isFound then Except.ok (r.coord, r.nextState, true)
      else runSearch r.nextState fs

/-- Modelled from the spec: a feedback token is consistent with a
target when it is truthful about the target's position relative to
the previous probe of the given state. -/
def ConsistentF (t : Coord) (s : SearchState) (f : Feedback) : Bool :=
  match f with
  | Feedback.found => decide (s.probe = t)
  | Feedback.left => decide (t.x < s.probe.x)
  | Feedback.right => decide (s.probe.x < t.x)
  | Feedback.above => decide (t.y < s.probe.y)
  | Feedback.below => decide (s.probe.y < t.y)

/-- Modelled from the spec: a feedback sequence is a consistent run for
a target when every token is truthful for the state it is given to,
the strategy accepts every token, and no token follows a found
signal. -/
def ConsistentRun (t : Coord) : SearchState → List Feedback → Bool
  | _, [] => true
  | s, f :: fs =>
    ConsistentF t s f &&
    match s.decide f with
    | Except.error _ => false
    | Except.ok r => if r.isFound then fs.isEmpty else ConsistentRun t r.nextState fs

/-- Modelled from the spec: the window invariant, the target lies
inside the current window. -/
def InvB (t : Coord) (s : SearchState) : Bool :=
  decide (s.xMin ≤ t.x) && decide (t.x ≤ s.xMax) &&
  decide (s.yMin ≤ t.y) && decide (t.y ≤ s.yMax)

/-- Modelled from the spec: a directional feedback contradicts the
current window when no cell of the window lies in the claimed
direction of the previous probe; found never contradicts it. -/
def ContradictsRect (s : SearchState) (f : Feedback) : Prop :=
  match f with
  | Feedback.found => False
  | Feedback.left => ¬ ∃ v, s.xMin ≤ v ∧ v ≤ s.xMax ∧ v < s.probe.x
  | Feedback.right => ¬ ∃ v, s.xMin ≤ v ∧ v ≤ s.xMax ∧ s.probe.x < v
  | Feedback.above => ¬ ∃ v, s.yMin ≤ v ∧ v ≤ s.yMax ∧ v < s.probe.y
  | Feedback.below => ¬ ∃ v, s.yMin ≤ v ∧ v ≤ s.yMax ∧ s.probe.y < v

/-- Modelled from the spec: the convergence contract of a session,
stated about the run of the loop from the initial window: the run
succeeds, a found report names exactly the target, a converged window
is exactly the target point and its probe is the target, and a run
that is neither found nor converged has used fewer than
clog2(width) + clog2(height) turns. -/
def SearchOutcome (w h : Nat) (t : Coord) (fbs : List Feedback) : Prop :=
  ∃ c s2 fnd, runSearch (initState w h) fbs = Except.ok (c, s2, fnd) ∧
    (fnd = true → c = t) ∧
    (fnd = false → s2.converged = true → (c = t ∧ s2 = ⟨t.x, t.x, t.y, t.y⟩)) ∧
    (fnd = false → s2.converged = false → fbs.length < Nat.clog 2 w + Nat.clog 2 h)

/-! ## Helper lemmas about the source embedding -/

/-- CheckArgument succeeds exactly when the predicate accepts the
argument, and then returns the argument itself. -/
theorem checkArgument_ok_iff (a : Int) (p : Int → Bool) (m : String) (v : Int) :
    CheckArgument a p m = Except.ok v ↔ (p a = true ∧ v = a) := by
  unfold CheckArgument
  split
  · rename_i hp
    simp [hp, eq_comm]
  · rename_i hp
    simp [hp]

/-- CheckArgument fails exactly when the predicate rejects the
argument. -/
theorem checkArgument_error_iff (a : Int) (p : Int → Bool) (m : String) :
    (∃ e, CheckArgument a p m = Except.error e) ↔ p a = false := by
  unfold CheckArgument
  split
  · rename_i hp
    simp [hp]
  · rename_i hp
    simp at hp
    simp [hp]

/-- Bind on Except yields ok exactly when both stages do. -/
theorem except_bind_ok {α β : Type} (x : Except String α) (k : α → Except String β) (b : β) :
    x.bind k = Except.ok b ↔ ∃ a, x = Except.ok a ∧ k a = Except.ok b := by
  cases x <;> simp [Except.bind]

/-- Bind on Except yields an error exactly when some stage does. -/
theorem except_bind_error {α β : Type} (x : Except String α) (k : α → Except String β)
    (e : String) :
    x.bind k = Except.error e ↔
      (x = Except.error e ∨ ∃ a, x = Except.ok a ∧ k a = Except.error e) := by
  cases x <;> simp [Except.bind]

/-- Building.construct succeeds exactly on the ranges of the source
checks, and then the fields are the constructor arguments. -/
theorem building_construct_ok_iff (w h : Int) (b : Building) :
    Building.construct w h = Except.ok b ↔
      (1 ≤ w ∧ w ≤ 10000 ∧ 5 ≤ h ∧ h ≤ 10000 ∧ b = ⟨w, h⟩) := by
  simp only [Building.construct, Bind.bind, except_bind_ok, checkArgument_ok_iff,
    Building.MIN_WIDTH, Building.MAX_WIDTH, Building.MIN_HEIGHT, Building.MAX_HEIGHT,
    Bool.and_eq_true, decide_eq_true_eq, Except.ok.injEq]
  constructor
  · rintro ⟨a, ⟨⟨h1, h2⟩, rfl⟩, c, ⟨⟨h3, h4⟩, rfl⟩, rfl⟩
    exact ⟨h1, h2, h3, h4, rfl⟩
  · rintro ⟨h1, h2, h3, h4, rfl⟩
    exact ⟨w, ⟨⟨h1, h2⟩, rfl⟩, h, ⟨⟨h3, h4⟩, rfl⟩, rfl⟩

/-- Batman.construct succeeds exactly when both start coordinates lie
under the global maxima, and then stores exactly those coordinates. -/
theorem batman_construct_ok_iff (x y : Int) (p : Batman) :
    Batman.construct x y = Except.ok p ↔
      (0 ≤ x ∧ x < 10000 ∧ 0 ≤ y ∧ y < 10000 ∧ p = ⟨⟨x, y⟩⟩) := by
  simp only [Batman.construct, Bind.bind, except_bind_ok, checkArgument_ok_iff,
    Building.MAX_WIDTH, Building.MAX_HEIGHT, Bool.and_eq_true, decide_eq_true_eq,
    Except.ok.injEq]
  constructor
  · rintro ⟨a, ⟨⟨h1, h2⟩, rfl⟩, c, ⟨⟨h3, h4⟩, rfl⟩, rfl⟩
    exact ⟨h1, h2, h3, h4, rfl⟩
  · rintro ⟨h1, h2, h3, h4, rfl⟩
    exact ⟨x, ⟨⟨h1, h2⟩, rfl⟩, y, ⟨⟨h3, h4⟩, rfl⟩, rfl⟩

/-- ReadTurns succeeds exactly on the range of the source check, and
then returns the value read. -/
theorem readTurns_ok_iff (turns v : Int) :
    Game.ReadTurns turns = Except.ok v ↔ (2 ≤ turns ∧ turns ≤ 100 ∧ v = turns) := by
  simp only [Game.ReadTurns, checkArgument_ok_iff, Game.MIN_INPUT_TURNS, Game.MAX_INPUT_TURNS,
    Bool.and_eq_true, decide_eq_true_eq]
  tauto

/-- Game.construct succeeds exactly when every bootstrap value passes
its own check; the start coordinates are never compared with the
building read moments earlier. -/
theorem game_construct_ok_iff (w h turns x y : Int) (g : Game) :
    Game.construct w h turns x y = Except.ok g ↔
      (1 ≤ w ∧ w ≤ 10000 ∧ 5 ≤ h ∧ h ≤ 10000 ∧ 2 ≤ turns ∧ turns ≤ 100 ∧
       0 ≤ x ∧ x < 10000 ∧ 0 ≤ y ∧ y < 10000 ∧ g = ⟨⟨w, h⟩, turns, ⟨⟨x, y⟩⟩⟩) := by
  simp only [Game.construct, Bind.bind, except_bind_ok, building_construct_ok_iff,
    readTurns_ok_iff, batman_construct_ok_iff, Except.ok.injEq]
  constructor
  · rintro ⟨house, ⟨h1, h2, h3, h4, rfl⟩, tl, ⟨h5, h6, rfl⟩, pl, ⟨h7, h8, h9, h10, rfl⟩, rfl⟩
    exact ⟨h1, h2, h3, h4, h5, h6, h7, h8, h9, h10, rfl⟩
  · rintro ⟨h1, h2, h3, h4, h5, h6, h7, h8, h9, h10, rfl⟩
    exact ⟨⟨w, h⟩, ⟨h1, h2, h3, h4, rfl⟩, turns, ⟨h5, h6, rfl⟩, ⟨⟨x, y⟩⟩,
      ⟨h7, h8, h9, h10, rfl⟩, rfl⟩

/-- Every turn prints the same line: the stub returns the origin, so
the line is zero, space, zero, newline. -/
theorem onTurn_const (fb : String) : Game.OnTurn fb = "0 0\n" := rfl

/-- Any fuel at least TurnsLeft.toNat produces the same trace as fuel
exactly TurnsLeft.toNat: the loop stops by itself once IsRunning turns
false, so mainLoop is the semantics of the source's while loop. -/
theorem loopFrom_fuel (n : Nat) :
    ∀ (g : Game) (fb : List String), g.TurnsLeft.toNat ≤ n →
      Game.loopFrom n g fb = Game.loopFrom g.TurnsLeft.toNat g fb := by
  induction n with
  | zero =>
    intro g fb hle
    rw [show g.TurnsLeft.toNat = 0 from by omega]
  | succ n ih =>
    intro g fb hle
    by_cases hr : g.IsRunning
    · have h1 : 1 ≤ g.TurnsLeft := by
        simpa [Game.IsRunning, Game.STOP_BELOW_TURNS] using hr
      have hk : g.TurnsLeft.toNat = (g.TurnsLeft - 1).toNat + 1 := by omega
      have hafter : g.AfterTurn.TurnsLeft = g.TurnsLeft - 1 := rfl
      rw [hk]
      simp only [Game.loopFrom, hr, if_true]
      rw [ih g.AfterTurn fb.tail (by rw [hafter]; omega)]
      rw [show g.AfterTurn.TurnsLeft.toNat = (g.TurnsLeft - 1).toNat from by rw [hafter]]
    · have h1 : g.TurnsLeft < 1 := by
        simpa [Game.IsRunning, Game.STOP_BELOW_TURNS] using hr
      rw [show g.TurnsLeft.toNat = 0 from by omega]
      simp [Game.loopFrom, hr]

/-- The loop with its exact fuel emits one line per unit of fuel when
the fuel equals TurnsLeft.toNat. -/
theorem loopFrom_length (n : Nat) :
    ∀ (g : Game) (fb : List String), g.TurnsLeft.toNat = n →
      (Game.loopFrom n g fb).length = n := by
  induction n with
  | zero => intro g fb hn; rfl
  | succ n ih =>
    intro g fb hn
    have hr : g.IsRunning = true := by
      simp only [Game.IsRunning, Game.STOP_BELOW_TURNS, decide_eq_true_eq]
      omega
    have hafter : g.AfterTurn.TurnsLeft = g.TurnsLeft - 1 := rfl
    simp only [Game.loopFrom, hr, if_true, List.length_cons]
    rw [ih g.AfterTurn fb.tail (by rw [hafter]; omega)]

/-- The main loop emits exactly TurnsLeft.toNat lines. -/
theorem mainLoop_length (g : Game) (fb : List String) :
    (g.mainLoop fb).length = g.TurnsLeft.toNat :=
  loopFrom_length g.TurnsLeft.toNat g fb rfl

/-- Every line the loop emits is the constant stub line. -/
theorem loopFrom_mem (n : Nat) :
    ∀ (g : Game) (fb : List String) (line : String),
      line ∈ Game.loopFrom n g fb → line = "0 0\n" := by
  induction n with
  | zero => intro g fb line hmem; simp [Game.loopFrom] at hmem
  | succ n ih =>
    intro g fb line hmem
    by_cases hr : g.IsRunning
    · simp only [Game.loopFrom, hr, if_true, List.mem_cons] at hmem
      rcases hmem with hmem | hmem
      · rw [hmem]; exact onTurn_const _
      · exact ih _ _ _ hmem
    · simp [Game.loopFrom, hr] at hmem

/-- Every line mainLoop emits is the constant stub line. -/
theorem mainLoop_mem (g : Game) (fb : List String) (line : String)
    (hmem : line ∈ g.mainLoop fb) : line = "0 0\n" :=
  loopFrom_mem g.TurnsLeft.toNat g fb line hmem

/-! ## Claim theorems: source side -/

/-- Claim C1: for every feedback token the stub strategy returns the
origin without reading the feedback, so each turn's output line is the
two space-separated integers of that probe followed by a newline, and
the loop emits exactly one such line per turn. -/
theorem stub_strategy_constant_origin_output :
    (∀ fb : String, SimpleStrategy.MakeDecision fb = ⟨0, 0⟩) ∧
    (∀ fb : String, Game.OnTurn fb = "0 0\n") ∧
    (∀ (g : Game) (fbs : List String) (line : String),
      line ∈ g.mainLoop fbs → line = "0 0\n") ∧
    (∀ (g : Game) (fbs : List String), (g.mainLoop fbs).length = g.TurnsLeft.toNat) :=
  ⟨fun _ => rfl, fun fb => onTurn_const fb,
   fun g fbs line hmem => mainLoop_mem g fbs line hmem,
   fun g fbs => mainLoop_length g fbs⟩

/-- Witness for C1 at a concrete game with two turns and arbitrary
feedback tokens: the emitted line really occurs and is the constant. -/
theorem stub_strategy_constant_origin_output_witness :
    SimpleStrategy.MakeDecision emptyToken = ⟨0, 0⟩ ∧ "0 0\n" = "0 0\n" :=
  ⟨stub_strategy_constant_origin_output.1 emptyToken,
   stub_strategy_constant_origin_output.2.2.1 ⟨⟨5, 6⟩, 2, ⟨⟨0, 0⟩⟩⟩ [emptyToken] "0 0\n"
     (by decide)⟩

/-- Claim C2: constructing the Building fails exactly when width lies
outside [1, 10000] or height outside [5, 10000]; on success the
accessors return exactly the constructor arguments (the embedded
object is a value, so nothing can mutate it afterwards). -/
theorem building_bounds_validation :
    ∀ w h : Int,
      ((∃ b, Building.construct w h = Except.ok b) ↔
        (1 ≤ w ∧ w ≤ 10000 ∧ 5 ≤ h ∧ h ≤ 10000)) ∧
      (∀ b, Building.construct w h = Except.ok b →
        b.GetWidth = w ∧ b.GetHeight = h) := by
  intro w h
  constructor
  · constructor
    · rintro ⟨b, hb⟩
      have := (building_construct_ok_iff w h b).mp hb
      exact ⟨this.1, this.2.1, this.2.2.1, this.2.2.2.1⟩
    · rintro ⟨h1, h2, h3, h4⟩
      exact ⟨⟨w, h⟩, (building_construct_ok_iff w h ⟨w, h⟩).mpr ⟨h1, h2, h3, h4, rfl⟩⟩
  · intro b hb
    have := (building_construct_ok_iff w h b).mp hb
    rw [this.2.2.2.2]
    exact ⟨rfl, rfl⟩

/-- Witness for C2 at width 3, height 7: construction succeeds and the
accessors return the arguments. -/
theorem building_bounds_validation_witness :
    (∃ b, Building.construct 3 7 = Except.ok b) ∧
    Building.GetWidth ⟨3, 7⟩ = 3 ∧ Building.GetHeight ⟨3, 7⟩ = 7 :=
  ⟨(building_bounds_validation 3 7).1.mpr (by norm_num),
   (building_bounds_validation 3 7).2 ⟨3, 7⟩ rfl⟩

/-- Claim C3: the turn budget is validated to lie in [2, 100]; an
out-of-range value makes the whole bootstrap fail with the validation
error, so the program produces no turn output, and when the building
values themselves are in range the error is exactly the one ReadTurns
raised. -/
theorem turn_budget_bootstrap_validation :
    ∀ (w h turns x y : Int) (fbs : List String),
      ((∃ v, Game.ReadTurns turns = Except.ok v) ↔ (2 ≤ turns ∧ turns ≤ 100)) ∧
      (¬(2 ≤ turns ∧ turns ≤ 100) →
        ∃ e, mainProgram w h turns x y fbs = Except.error e) ∧
      (1 ≤ w → w ≤ 10000 → 5 ≤ h → h ≤ 10000 → ¬(2 ≤ turns ∧ turns ≤ 100) →
        ∃ e, Game.ReadTurns turns = Except.error e ∧
          mainProgram w h turns x y fbs = Except.error e) := by
  intro w h turns x y fbs
  refine ⟨?_, ?_, ?_⟩
  · constructor
    · rintro ⟨v, hv⟩
      have := (readTurns_ok_iff turns v).mp hv
      exact ⟨this.1, this.2.1⟩
    · rintro ⟨h1, h2⟩
      exact ⟨turns, (readTurns_ok_iff turns turns).mpr ⟨h1, h2, rfl⟩⟩
  · intro hbad
    cases hc : Game.construct w h turns x y with
    | error e =>
      exact ⟨e, by simp [mainProgram, Bind.bind, hc, Except.bind]⟩
    | ok g =>
      have := (game_construct_ok_iff w h turns x y g).mp hc
      exact absurd ⟨this.2.2.2.2.1, this.2.2.2.2.2.1⟩ hbad
  · intro hw1 hw2 hh1 hh2 hbad
    have hpred : (fun turns => Game.MIN_INPUT_TURNS ≤ turns &&
        turns ≤ Game.MAX_INPUT_TURNS) turns = false := by
      simp only [Game.MIN_INPUT_TURNS, Game.MAX_INPUT_TURNS, Bool.and_eq_false_iff,
        decide_eq_false_iff_not]
      omega
    have hread : ∃ e, Game.ReadTurns turns = Except.error e := by
      rw [Game.ReadTurns]
      exact (checkArgument_error_iff _ _ _).mpr hpred
    obtain ⟨e, he⟩ := hread
    refine ⟨e, he, ?_⟩
    have hb : Building.construct w h = Except.ok ⟨w, h⟩ :=
      (building_construct_ok_iff w h ⟨w, h⟩).mpr ⟨hw1, hw2, hh1, hh2, rfl⟩
    simp [mainProgram, Game.construct, Bind.bind, hb, Except.bind, he]

/-- Witness for C3 at turns 101 and a valid building: ReadTurns
rejects it and the program errors out with the same message. -/
theorem turn_budget_bootstrap_validation_witness :
    ∃ e, Game.ReadTurns 101 = Except.error e ∧
      mainProgram 5 6 101 0 0 [] = Except.error e :=
  (turn_budget_bootstrap_validation 5 6 101 0 0 []).2.2
    (by norm_num) (by norm_num) (by norm_num) (by norm_num) (by omega)

/-- Claim C4: the session is terminal exactly when TurnsLeft is below
one; a running session's turn succeeds and decrements TurnsLeft by
exactly one; a turn requested on a terminal session fails with the
not-running error and produces no output line. -/
theorem turn_decrement_and_session_termination :
    ∀ (g : Game) (fb : String),
      (g.IsRunning = false ↔ g.TurnsLeft < 1) ∧
      (g.IsRunning = true →
        g.NextTurn fb = Except.ok (g.AfterTurn, Game.OnTurn fb) ∧
        g.AfterTurn.TurnsLeft = g.TurnsLeft - 1) ∧
      (g.IsRunning = false → g.NextTurn fb = Except.error notRunningMsg) := by
  intro g fb
  refine ⟨?_, ?_, ?_⟩
  · simp only [Game.IsRunning, Game.STOP_BELOW_TURNS, decide_eq_false_iff_not, not_le]
  · intro hr
    constructor
    · simp [Game.NextTurn, Game.BeforeTurn, hr, Bind.bind, Except.bind]
    · rfl
  · intro hr
    simp [Game.NextTurn, Game.BeforeTurn, hr, Bind.bind, Except.bind]

/-- Witness for C4: a two-turn session is running and its turn
decrements the budget; a zero-turn session refuses the turn. -/
theorem turn_decrement_and_session_termination_witness :
    (Game.NextTurn ⟨⟨5, 6⟩, 2, ⟨⟨0, 0⟩⟩⟩ emptyToken =
      Except.ok (Game.AfterTurn ⟨⟨5, 6⟩, 2, ⟨⟨0, 0⟩⟩⟩, Game.OnTurn emptyToken) ∧
     (Game.AfterTurn ⟨⟨5, 6⟩, 2, ⟨⟨0, 0⟩⟩⟩).TurnsLeft = 2 - 1) ∧
    Game.NextTurn ⟨⟨5, 6⟩, 0, ⟨⟨0, 0⟩⟩⟩ emptyToken = Except.error notRunningMsg :=
  ⟨(turn_decrement_and_session_termination ⟨⟨5, 6⟩, 2, ⟨⟨0, 0⟩⟩⟩ emptyToken).2.1 (by decide),
   (turn_decrement_and_session_termination ⟨⟨5, 6⟩, 0, ⟨⟨0, 0⟩⟩⟩ emptyToken).2.2 (by decide)⟩

/-- Claim C10: the starting coordinates are validated against the
global maxima only (accepted exactly when nonnegative and below
10000), so with a building narrower or shorter than the maxima a start
outside the building but below the maxima still bootstraps without
error. -/
theorem start_position_checked_against_maxima_only :
    (∀ x y : Int,
      (∃ p, Batman.construct x y = Except.ok p) ↔
        (0 ≤ x ∧ x < 10000 ∧ 0 ≤ y ∧ y < 10000)) ∧
    (∀ w h turns x y : Int,
      (∃ g, Game.construct w h turns x y = Except.ok g) ↔
        (1 ≤ w ∧ w ≤ 10000 ∧ 5 ≤ h ∧ h ≤ 10000 ∧ 2 ≤ turns ∧ turns ≤ 100 ∧
         0 ≤ x ∧ x < 10000 ∧ 0 ≤ y ∧ y < 10000)) := by
  constructor
  · intro x y
    constructor
    · rintro ⟨p, hp⟩
      have := (batman_construct_ok_iff x y p).mp hp
      exact ⟨this.1, this.2.1, this.2.2.1, this.2.2.2.1⟩
    · rintro ⟨h1, h2, h3, h4⟩
      exact ⟨⟨⟨x, y⟩⟩, (batman_construct_ok_iff x y ⟨⟨x, y⟩⟩).mpr ⟨h1, h2, h3, h4, rfl⟩⟩
  · intro w h turns x y
    constructor
    · rintro ⟨g, hg⟩
      have := (game_construct_ok_iff w h turns x y g).mp hg
      exact ⟨this.1, this.2.1, this.2.2.1, this.2.2.2.1, this.2.2.2.2.1, this.2.2.2.2.2.1,
        this.2.2.2.2.2.2.1, this.2.2.2.2.2.2.2.1, this.2.2.2.2.2.2.2.2.1,
        this.2.2.2.2.2.2.2.2.2.1⟩
    · rintro ⟨h1, h2, h3, h4, h5, h6, h7, h8, h9, h10⟩
      exact ⟨⟨⟨w, h⟩, turns, ⟨⟨x, y⟩⟩⟩,
        (game_construct_ok_iff w h turns x y ⟨⟨w, h⟩, turns, ⟨⟨x, y⟩⟩⟩).mpr
          ⟨h1, h2, h3, h4, h5, h6, h7, h8, h9, h10, rfl⟩⟩

/-- Witness for C10: a building of width 5 accepts a start whose x is
7, outside the building yet below the global maximum. -/
theorem start_position_checked_against_maxima_only_witness :
    ∃ g, Game.construct 5 5 10 7 0 = Except.ok g :=
  (start_position_checked_against_maxima_only.2 5 5 10 7 0).mpr (by norm_num)

/-! ## Helper lemmas about the modelled strategy -/

/-- One accepted consistent decision preserves the window invariant,
reports the next window's probe, and either signals found at the
target with the window unchanged, or halves one axis of the window
(an axis that had at least two values) leaving the other axis
untouched. -/
theorem decide_step (t : Coord) (s : SearchState) (f : Feedback) (r : DecideResult)
    (hInv : InvB t s = true) (hC : ConsistentF t s f = true)
    (hok : s.decide f = Except.ok r) :
    InvB t r.nextState = true ∧ r.coord = r.nextState.probe ∧
    ((r.isFound = true ∧ r.coord = t ∧ r.nextState = s) ∨
     (r.isFound = false ∧
      ((2 ≤ s.sizeX ∧ r.nextState.sizeX ≤ s.sizeX / 2 ∧ r.nextState.sizeY = s.sizeY) ∨
       (2 ≤ s.sizeY ∧ r.nextState.sizeY ≤ s.sizeY / 2 ∧ r.nextState.sizeX = s.sizeX)))) := by
  have hInv0 := hInv
  simp only [InvB, Bool.and_eq_true, decide_eq_true_eq] at hInv
  obtain ⟨⟨⟨h1, h2⟩, h3⟩, h4⟩ := hInv
  unfold SearchState.decide at hok
  by_cases hc : s.converged = true
  · simp [hc] at hok
  · simp only [Bool.not_eq_true] at hc
    rw [hc] at hok
    simp only [Bool.false_eq_true, if_false] at hok
    cases f with
    | found =>
      simp only [ConsistentF, decide_eq_true_eq] at hC
      simp only [Except.ok.injEq] at hok
      subst hok
      exact ⟨hInv0, by rw [hC], Or.inl ⟨rfl, hC, rfl⟩⟩
    | left =>
      simp only [ConsistentF, SearchState.probe, decide_eq_true_eq] at hC
      by_cases hL : s.probe.x ≤ s.xMin
      · simp [hL] at hok
      · simp only [hL, if_false, Except.ok.injEq] at hok
        subst hok
        simp only [SearchState.probe] at hL
        refine ⟨?_, rfl, Or.inr ⟨rfl, Or.inl ⟨?_, ?_, rfl⟩⟩⟩
        · simp only [InvB, SearchState.probe, Bool.and_eq_true, decide_eq_true_eq]
          refine ⟨⟨⟨h1, ?_⟩, h3⟩, h4⟩
          omega
        · simp only [SearchState.sizeX]
          omega
        · simp only [SearchState.sizeX, SearchState.probe]
          omega
    | right =>
      simp only [ConsistentF, SearchState.probe, decide_eq_true_eq] at hC
      by_cases hR : s.xMax ≤ s.probe.x
      · simp [hR] at hok
      · simp only [hR, if_false, Except.ok.injEq] at hok
        subst hok
        simp only [SearchState.probe] at hR
        refine ⟨?_, rfl, Or.inr ⟨rfl, Or.inl ⟨?_, ?_, rfl⟩⟩⟩
        · simp only [InvB, SearchState.probe, Bool.and_eq_true, decide_eq_true_eq]
          refine ⟨⟨⟨?_, h2⟩, h3⟩, h4⟩
          omega
        · simp only [SearchState.sizeX]
          omega
        · simp only [SearchState.sizeX, SearchState.probe]
          omega
    | above =>
      simp only [ConsistentF, SearchState.probe, decide_eq_true_eq] at hC
      by_cases hA : s.probe.y ≤ s.yMin
      · simp [hA] at hok
      · simp only [hA, if_false, Except.ok.injEq] at hok
        subst hok
        simp only [SearchState.probe] at hA
        refine ⟨?_, rfl, Or.inr ⟨rfl, Or.inr ⟨?_, ?_, rfl⟩⟩⟩
        · simp only [InvB, SearchState.probe, Bool.and_eq_true, decide_eq_true_eq]
          refine ⟨⟨⟨h1, h2⟩, h3⟩, ?_⟩
          omega
        · simp only [SearchState.sizeY]
          omega
        · simp only [SearchState.sizeY, SearchState.probe]
          omega
    | below =>
      simp only [ConsistentF, SearchState.probe, decide_eq_true_eq] at hC
      by_cases hB : s.yMax ≤ s.probe.y
      · simp [hB] at hok
      · simp only [hB, if_false, Except.ok.injEq] at hok
        subst hok
        simp only [SearchState.probe] at hB
        refine ⟨?_, rfl, Or.inr ⟨rfl, Or.inr ⟨?_, ?_, rfl⟩⟩⟩
        · simp only [InvB, SearchState.probe, Bool.and_eq_true, decide_eq_true_eq]
          refine ⟨⟨⟨h1, h2⟩, ?_⟩, h4⟩
          omega
        · simp only [SearchState.sizeY]
          omega
        · simp only [SearchState.sizeY, SearchState.probe]
          omega

/-- A power of two that reaches two has a positive exponent. -/
theorem one_le_of_two_le_pow (k : Nat) (h : 2 ≤ 2 ^ k) : 1 ≤ k := by
  cases k with
  | zero => norm_num at h
  | succ n => omega

/-- Halving stays below the predecessor power of two. -/
theorem half_le_pow_pred (n k : Nat) (hk : 1 ≤ k) (h : n ≤ 2 ^ k) : n / 2 ≤ 2 ^ (k - 1) := by
  obtain ⟨m, rfl⟩ : ∃ m, k = m + 1 := ⟨k - 1, by omega⟩
  have h2 : (2 : Nat) ^ (m + 1) = 2 ^ m * 2 := pow_succ 2 m
  rw [h2] at h
  simp only [Nat.add_sub_cancel]
  omega

/-- Core run lemma: along any consistent feedback run the loop never
fails, the invariant is preserved, a found report names the target, a
converged final window is the target point, and a run that ends still
unconverged is shorter than the sum of the axis budgets, where the
budgets bound the axis sizes by powers of two. -/
theorem runSearch_bound (t : Coord) :
    ∀ (fbs : List Feedback) (s : SearchState) (kx ky : Nat),
      InvB t s = true → s.sizeX ≤ 2 ^ kx → s.sizeY ≤ 2 ^ ky →
      ConsistentRun t s fbs = true →
      ∃ c s2 fnd, runSearch s fbs = Except.ok (c, s2, fnd) ∧
        InvB t s2 = true ∧
        (fnd = true → c = t) ∧
        (fnd = false → c = s2.probe ∧
          (s2.converged = true → s2 = ⟨t.x, t.x, t.y, t.y⟩) ∧
          (s2.converged = false → fbs.length < kx + ky)) := by
  intro fbs
  induction fbs with
  | nil =>
    intro s kx ky hInv hx hy _
    refine ⟨s.probe, s, false, rfl, hInv, by simp, fun _ => ⟨rfl, ?_, ?_⟩⟩
    · intro hconv
      obtain ⟨a, b, cc, d⟩ := s
      simp only [SearchState.converged, Bool.and_eq_true, beq_iff_eq] at hconv
      simp only [InvB, Bool.and_eq_true, decide_eq_true_eq] at hInv
      simp only [SearchState.mk.injEq]
      omega
    · intro hconv
      have hne : ¬(s.xMin = s.xMax ∧ s.yMin = s.yMax) := by
        rintro ⟨e1, e2⟩
        simp [SearchState.converged, e1, e2] at hconv
      simp only [InvB, Bool.and_eq_true, decide_eq_true_eq] at hInv
      have hsz : 2 ≤ s.sizeX ∨ 2 ≤ s.sizeY := by
        simp only [SearchState.sizeX, SearchState.sizeY]
        by_cases hxx : s.xMin = s.xMax
        · by_cases hyy : s.yMin = s.yMax
          · exact absurd ⟨hxx, hyy⟩ hne
          · right; omega
        · left; omega
      simp only [List.length_nil]
      rcases hsz with hs2 | hs2
      · have := one_le_of_two_le_pow kx (le_trans hs2 hx)
        omega
      · have := one_le_of_two_le_pow ky (le_trans hs2 hy)
        omega
  | cons f fs ih =>
    intro s kx ky hInv hx hy hrun
    simp only [ConsistentRun, Bool.and_eq_true] at hrun
    obtain ⟨hC, hrest⟩ := hrun
    cases hdec : s.decide f with
    | error e => rw [hdec] at hrest; simp at hrest
    | ok r =>
      rw [hdec] at hrest
      dsimp only at hrest
      obtain ⟨hInv2, hcoord, hcase⟩ := decide_step t s f r hInv hC hdec
      cases hfound : r.isFound with
      | true =>
        rcases hcase with ⟨_, hct, _⟩ | ⟨hff, _⟩
        · refine ⟨r.coord, r.nextState, true, ?_, hInv2, fun _ => hct, by simp⟩
          simp only [runSearch]
          rw [hdec]
          simp [hfound]
        · rw [hff] at hfound; cases hfound
      | false =>
        rw [hfound] at hrest
        simp at hrest
        rcases hcase with ⟨htrue, _⟩ | ⟨_, hhalve⟩
        · rw [htrue] at hfound; cases hfound
        · rcases hhalve with ⟨hx2, hxle, hyeq⟩ | ⟨hy2, hyle, hxeq⟩
          · have hkx : 1 ≤ kx := one_le_of_two_le_pow kx (le_trans hx2 hx)
            have hx2' : r.nextState.sizeX ≤ 2 ^ (kx - 1) :=
              le_trans hxle (half_le_pow_pred s.sizeX kx hkx hx)
            have hy2' : r.nextState.sizeY ≤ 2 ^ ky := by rw [hyeq]; exact hy
            obtain ⟨c, s2, fnd, hrun2, hi2, hf2, hnf2⟩ :=
              ih r.nextState (kx - 1) ky hInv2 hx2' hy2' hrest
            refine ⟨c, s2, fnd, ?_, hi2, hf2, ?_⟩
            · simp only [runSearch]
              rw [hdec]
              simpa [hfound] using hrun2
            · intro hf
              obtain ⟨hcp, hcv, hncv⟩ := hnf2 hf
              refine ⟨hcp, hcv, fun hc2 => ?_⟩
              have := hncv hc2
              simp only [List.length_cons]
              omega
          · have hky : 1 ≤ ky := one_le_of_two_le_pow ky (le_trans hy2 hy)
            have hy2' : r.nextState.sizeY ≤ 2 ^ (ky - 1) :=
              le_trans hyle (half_le_pow_pred s.sizeY ky hky hy)
            have hx2' : r.nextState.sizeX ≤ 2 ^ kx := by rw [hxeq]; exact hx
            obtain ⟨c, s2, fnd, hrun2, hi2, hf2, hnf2⟩ :=
              ih r.nextState kx (ky - 1) hInv2 hx2' hy2' hrest
            refine ⟨c, s2, fnd, ?_, hi2, hf2, ?_⟩
            · simp only [runSearch]
              rw [hdec]
              simpa [hfound] using hrun2
            · intro hf
              obtain ⟨hcp, hcv, hncv⟩ := hnf2 hf
              refine ⟨hcp, hcv, fun hc2 => ?_⟩
              have := hncv hc2
              simp only [List.length_cons]
              omega

/-! ## Claim theorems: modelled strategy side -/

/-- Claim C5: the target always lies in the initial window, and any
accepted consistent decision keeps it in the window, never grows the
window's area, and strictly shrinks it unless the strategy signalled
found. -/
theorem search_area_monotone_decrease :
    (∀ (w h : Nat) (t : Coord), t.x < w → t.y < h → InvB t (initState w h) = true) ∧
    (∀ (t : Coord) (s : SearchState) (f : Feedback) (r : DecideResult),
      InvB t s = true → ConsistentF t s f = true → s.decide f = Except.ok r →
      InvB t r.nextState = true ∧ r.nextState.area ≤ s.area ∧
        (r.isFound = false → r.nextState.area < s.area)) := by
  constructor
  · intro w h t htx hty
    simp only [InvB, initState, Bool.and_eq_true, decide_eq_true_eq]
    refine ⟨⟨⟨Nat.zero_le _, by omega⟩, Nat.zero_le _⟩, by omega⟩
  · intro t s f r hInv hC hok
    obtain ⟨hInv2, _, hcase⟩ := decide_step t s f r hInv hC hok
    rcases hcase with ⟨hft, _, hns⟩ | ⟨hff, hhalve⟩
    · refine ⟨hInv2, by rw [hns], fun hf => ?_⟩
      rw [hft] at hf
      cases hf
    · have hy0 : 0 < s.sizeY := Nat.succ_pos _
      have hx0 : 0 < s.sizeX := Nat.succ_pos _
      rcases hhalve with ⟨h2, hle, heq⟩ | ⟨h2, hle, heq⟩
      · refine ⟨hInv2, ?_, fun _ => ?_⟩
        · simp only [SearchState.area, heq]
          exact Nat.mul_le_mul_right _ (by omega)
        · simp only [SearchState.area, heq]
          exact (Nat.mul_lt_mul_right hy0).mpr (by omega)
      · refine ⟨hInv2, ?_, fun _ => ?_⟩
        · simp only [SearchState.area, heq]
          exact Nat.mul_le_mul_left _ (by omega)
        · simp only [SearchState.area, heq]
          exact (Nat.mul_lt_mul_left hx0).mpr (by omega)

/-- Witness for C5: for target (6,3) in a 10 by 5 building, the first
consistent decision halves the window from area 50 to area 25. -/
theorem search_area_monotone_decrease_witness :
    InvB ⟨6, 3⟩ (initState 10 5) = true ∧
    (SearchState.area ⟨5, 9, 0, 4⟩ ≤ SearchState.area ⟨0, 9, 0, 4⟩ ∧
     (false = false → SearchState.area ⟨5, 9, 0, 4⟩ < SearchState.area ⟨0, 9, 0, 4⟩)) :=
  ⟨search_area_monotone_decrease.1 10 5 ⟨6, 3⟩ (by decide) (by decide),
   (search_area_monotone_decrease.2 ⟨6, 3⟩ (initState 10 5) Feedback.right
     ⟨⟨7, 2⟩, ⟨5, 9, 0, 4⟩, false⟩ (by decide) (by decide) rfl).2⟩

/-- Claim C6: the decision operation is a pure function of the pair it
is given: equal state and feedback yield the identical result, and the
source's stub strategy in addition returns the same coordinate for
every feedback, reading nothing else. -/
theorem strategy_decision_deterministic :
    (∀ (s : SearchState) (f : Feedback), s.decide f = s.decide f) ∧
    (∀ (s1 s2 : SearchState) (f1 f2 : Feedback),
      s1 = s2 → f1 = f2 → s1.decide f1 = s2.decide f2) ∧
    (∀ fb : String, SimpleStrategy.MakeDecision fb = SimpleStrategy.MakeDecision fb) ∧
    (∀ fb1 fb2 : String, SimpleStrategy.MakeDecision fb1 = SimpleStrategy.MakeDecision fb2) :=
  ⟨fun _ _ => rfl, fun s1 s2 f1 f2 h1 h2 => by rw [h1, h2], fun _ => rfl, fun _ _ => rfl⟩

/-- Witness for C6 at a concrete state and feedback pair. -/
theorem strategy_decision_deterministic_witness :
    SearchState.decide (initState 3 5) Feedback.right =
      SearchState.decide (initState 3 5) Feedback.right :=
  strategy_decision_deterministic.2.1 (initState 3 5) (initState 3 5)
    Feedback.right Feedback.right rfl rfl

/-- Claim C7: from the initial window of any valid building, every
feedback run consistent with a target inside the building either
reports found exactly at the target, or has converged exactly to the
target, or has used fewer than clog2 width plus clog2 height turns:
the probes converge to the target within that budget. -/
theorem binary_search_convergence_bound :
    ∀ (w h : Nat) (t : Coord) (fbs : List Feedback),
      1 ≤ w → 5 ≤ h → t.x < w → t.y < h →
      ConsistentRun t (initState w h) fbs = true →
      SearchOutcome w h t fbs := by
  intro w h t fbs hw hh htx hty hrun
  have hInv : InvB t (initState w h) = true := by
    simp only [InvB, initState, Bool.and_eq_true, decide_eq_true_eq]
    refine ⟨⟨⟨Nat.zero_le _, by omega⟩, Nat.zero_le _⟩, by omega⟩
  have hx : (initState w h).sizeX ≤ 2 ^ Nat.clog 2 w := by
    simp only [initState, SearchState.sizeX]
    have := Nat.le_pow_clog (b := 2) (by norm_num) w
    omega
  have hy : (initState w h).sizeY ≤ 2 ^ Nat.clog 2 h := by
    simp only [initState, SearchState.sizeY]
    have := Nat.le_pow_clog (b := 2) (by norm_num) h
    omega
  obtain ⟨c, s2, fnd, hrun2, _, hf, hnf⟩ :=
    runSearch_bound t fbs (initState w h) (Nat.clog 2 w) (Nat.clog 2 h) hInv hx hy hrun
  refine ⟨c, s2, fnd, hrun2, hf, ?_, ?_⟩
  · intro hf2 hcv
    obtain ⟨hcp, hcvf, _⟩ := hnf hf2
    have hs2 := hcvf hcv
    refine ⟨?_, hs2⟩
    rw [hcp, hs2]
    obtain ⟨a, b⟩ := t
    simp only [SearchState.probe, Coord.mk.injEq]
    omega
  · intro hf2 hcv
    exact (hnf hf2).2.2 hcv

/-- Witness for C7: the 10 by 5 building with target (6,3) and the
consistent run right, left, right, below, found reaches the target. -/
theorem binary_search_convergence_bound_witness :
    SearchOutcome 10 5 ⟨6, 3⟩
      [Feedback.right, Feedback.left, Feedback.right, Feedback.below, Feedback.found] :=
  binary_search_convergence_bound 10 5 ⟨6, 3⟩
    [Feedback.right, Feedback.left, Feedback.right, Feedback.below, Feedback.found]
    (by decide) (by decide) (by decide) (by decide) (by decide)

/-- Claim C8: the loop executes no further turn once found is
signalled (the result is fixed whatever tokens remain), exhausting the
tokens returns a normal non-found report rather than an error, and the
source's while loop runs no turn once TurnsLeft is below the stop
threshold, emitting exactly TurnsLeft.toNat lines overall. -/
theorem loop_stops_on_found_or_exhaustion :
    (∀ (s : SearchState) (f : Feedback) (fs : List Feedback) (r : DecideResult),
      s.decide f = Except.ok r → r.isFound = true →
      runSearch s (f :: fs) = Except.ok (r.coord, r.nextState, true)) ∧
    (∀ s : SearchState, runSearch s [] = Except.ok (s.probe, s, false)) ∧
    (∀ (g : Game) (fbs : List String), g.IsRunning = false → g.mainLoop fbs = []) ∧
    (∀ (g : Game) (fbs : List String), (g.mainLoop fbs).length = g.TurnsLeft.toNat) := by
  refine ⟨?_, fun s => rfl, ?_, fun g fbs => mainLoop_length g fbs⟩
  · intro s f fs r hok hf
    simp only [runSearch]
    rw [hok]
    simp [hf]
  · intro g fbs hr
    have h1 : ¬ (1 : Int) ≤ g.TurnsLeft := by
      simpa [Game.IsRunning, Game.STOP_BELOW_TURNS] using hr
    unfold Game.mainLoop
    rw [show g.TurnsLeft.toNat = 0 from by omega]
    rfl

/-- Witness for C8: a found signal on a non-converged window returns
at once, ignoring the remaining token, and a session with no turns
left emits nothing. -/
theorem loop_stops_on_found_or_exhaustion_witness :
    runSearch ⟨5, 6, 3, 3⟩ [Feedback.found, Feedback.left] =
      Except.ok (SearchState.probe ⟨5, 6, 3, 3⟩, ⟨5, 6, 3, 3⟩, true) ∧
    Game.mainLoop ⟨⟨5, 6⟩, 0, ⟨⟨0, 0⟩⟩⟩ [emptyToken] = [] :=
  ⟨loop_stops_on_found_or_exhaustion.1 ⟨5, 6, 3, 3⟩ Feedback.found [Feedback.left]
     ⟨SearchState.probe ⟨5, 6, 3, 3⟩, ⟨5, 6, 3, 3⟩, true⟩ rfl rfl,
   loop_stops_on_found_or_exhaustion.2.2.1 ⟨⟨5, 6⟩, 0, ⟨⟨0, 0⟩⟩⟩ [emptyToken] rfl⟩

/-- Claim C9: on a live window whose bounds are ordered, the strategy
fails with DataIntegrityError exactly when the feedback contradicts
the window; in particular the feedback above with the previous probe
already at row zero is rejected this way, and that error kind is
distinct from InvalidArgument. -/
theorem contradictory_feedback_integrity_error :
    ∀ (s : SearchState) (f : Feedback),
      s.xMin ≤ s.xMax → s.yMin ≤ s.yMax → s.converged = false →
      ((s.decide f = Except.error ErrorKind.dataIntegrityError ↔ ContradictsRect s f) ∧
       (f = Feedback.above → s.probe.y = 0 →
         s.decide f = Except.error ErrorKind.dataIntegrityError) ∧
       ErrorKind.dataIntegrityError ≠ ErrorKind.invalidArgument) := by
  intro s f hx hy hnc
  refine ⟨?_, ?_, by decide⟩
  · unfold SearchState.decide
    rw [hnc]
    simp only [Bool.false_eq_true, if_false]
    cases f with
    | found =>
      exact ⟨fun habs => Except.noConfusion habs, fun hcon => False.elim hcon⟩
    | left =>
      by_cases hc : s.probe.x ≤ s.xMin
      · rw [if_pos hc]
        refine ⟨fun _ => ?_, fun _ => rfl⟩
        rintro ⟨v, h1, h2, h3⟩
        omega
      · rw [if_neg hc]
        exact ⟨fun habs => Except.noConfusion habs,
          fun hcon => absurd ⟨s.xMin, le_refl _, hx, not_le.mp hc⟩ hcon⟩
    | right =>
      by_cases hc : s.xMax ≤ s.probe.x
      · rw [if_pos hc]
        refine ⟨fun _ => ?_, fun _ => rfl⟩
        rintro ⟨v, h1, h2, h3⟩
        omega
      · rw [if_neg hc]
        exact ⟨fun habs => Except.noConfusion habs,
          fun hcon => absurd ⟨s.xMax, hx, le_refl _, not_le.mp hc⟩ hcon⟩
    | above =>
      by_cases hc : s.probe.y ≤ s.yMin
      · rw [if_pos hc]
        refine ⟨fun _ => ?_, fun _ => rfl⟩
        rintro ⟨v, h1, h2, h3⟩
        omega
      · rw [if_neg hc]
        exact ⟨fun habs => Except.noConfusion habs,
          fun hcon => absurd ⟨s.yMin, le_refl _, hy, not_le.mp hc⟩ hcon⟩
    | below =>
      by_cases hc : s.yMax ≤ s.probe.y
      · rw [if_pos hc]
        refine ⟨fun _ => ?_, fun _ => rfl⟩
        rintro ⟨v, h1, h2, h3⟩
        omega
      · rw [if_neg hc]
        exact ⟨fun habs => Except.noConfusion habs,
          fun hcon => absurd ⟨s.yMax, hy, le_refl _, not_le.mp hc⟩ hcon⟩
  · rintro rfl hprobe
    unfold SearchState.decide
    rw [hnc]
    simp only [Bool.false_eq_true, if_false]
    rw [if_pos (by rw [hprobe]; exact Nat.zero_le _)]

/-- Witness for C9: on the window with columns 0..3 and rows 0..1 the
probe sits at row zero, and the feedback above is rejected with
DataIntegrityError, an error distinct from InvalidArgument. -/
theorem contradictory_feedback_integrity_error_witness :
    SearchState.decide ⟨0, 3, 0, 1⟩ Feedback.above =
      Except.error ErrorKind.dataIntegrityError ∧
    ErrorKind.dataIntegrityError ≠ ErrorKind.invalidArgument :=
  ⟨(contradictory_feedback_integrity_error ⟨0, 3, 0, 1⟩ Feedback.above
      (by decide) (by decide) rfl).2.1 rfl rfl,
   (contradictory_feedback_integrity_error ⟨0, 3, 0, 1⟩ Feedback.above
      (by decide) (by decide) rfl).2.2⟩
